import Mathlib

/-!
Shallow embedding of `src/notify.py` (booking-notify).

Calendar dates are modelled as natural day numbers: the Python code iterates
`datetime` values one day at a time and keys all sets by the `YYYY-MM-DD`
string of the date, and `strftime`/`strptime` is a bijection between valid
dates and their strings, so day numbers are a faithful key type.

The remote availability API is modelled as an oracle `source : Nat → QueryResult`
giving, per date, the outcome of the `requests.get` + JSON parse at line 101-103:
a raised `RequestException` (transport/HTTP/parse failure), a response whose
`success` or `data` field is falsy/absent (the "no data" branch, line 142), or a
usable payload with `available` and `capacity` counts (lines 105-108, where
`.get` supplies default 0).

Discord delivery is modelled as an oracle `dlv : Nat → DeliveryOutcome` giving
the outcome of the `requests.post` inside `send_discord_webhook` for the
notification of each date.
-/

namespace BookingNotify

/-- Outcome of querying the data source for one date (lines 101-108 of
`notify.py`). -/
inductive QueryResult where
  | failure : QueryResult
  | noData : QueryResult
  | ok (available : Nat) (capacity : Nat) : QueryResult
deriving DecidableEq, Repr

/-- Outcome of one `requests.post` to the Discord webhook. -/
inductive DeliveryOutcome where
  | success : DeliveryOutcome
  | httpError (status : Nat) : DeliveryOutcome
  | networkError : DeliveryOutcome
deriving DecidableEq, Repr

/-- Models `requests.post(webhook_url, json=data)` followed by
`response.raise_for_status()` (lines 22-23): raises a `RequestException`
on a network error or a non-2xx status. -/
def requests_post : DeliveryOutcome → Except String Unit
  | .success => .ok ()
  | .httpError s => .error ("HTTPError " ++ toString s)
  | .networkError => .error "ConnectionError"

/-- The extra hint printed when the failure indicates the webhook target is
invalid or deleted (line 27-28: status 404). -/
def hintLines : DeliveryOutcome → List String
  | .httpError 404 => ["HINT: webhook URL may be wrong or deleted"]
  | _ => []

/-- Definition of `send_discord_webhook` (lines 8-28): posts the payload, and catches every
`RequestException`, logging it. The `Except` result is what the caller sees:
a `.error` would mean an exception propagated to the caller. -/
def send_discord_webhook (o : DeliveryOutcome) : Except String (List String) :=
  match requests_post o with
  | .ok _ => .ok ["Discord: Message sent successfully"]
  | .error e => .ok (("Discord Webhook Error: " ++ e) :: hintLines o)

/-- One availability record appended to the run output (lines 111-115). -/
structure AvailRecord where
  date : Nat
  available : Nat
  capacity : Nat
deriving DecidableEq, Repr

/-- The mutable state of one `check_availability` run: the notified set
(mutated in place), the list of dates the data source was queried for, the
accumulated result list, the notification attempts `(date, outcome)` in
order, and `new_dates_found_count`. -/
structure RunState where
  notified : Finset Nat
  queried : List Nat
  results : List AvailRecord
  sent : List (Nat × DeliveryOutcome)
  newCount : Nat
deriving DecidableEq

/-- The loop body of `check_availability` for one date `d` (lines 91-149).
Mirrors the Python control flow: skip-set short-circuit (line 95), query with
per-date exception handling (lines 100-146), the available/full branches
(lines 110-140).  A notification attempt is recorded in `sent` when
`send_discord_webhook` is called (line 129); the date is added to `notified`
after the call returns (line 131), which it always does since the webhook
sender catches its exceptions. -/
def processDate (source : Nat → QueryResult) (dlv : Nat → DeliveryOutcome)
    (skip : Finset Nat) (s : RunState) (d : Nat) : RunState :=
  if d ∈ skip then s
  else
    match source d with
    | .failure => { s with queried := s.queried ++ [d] }
    | .noData => { s with queried := s.queried ++ [d] }
    | .ok a c =>
      if 0 < a then
        if d ∈ s.notified then
          { s with queried := s.queried ++ [d],
                   results := s.results ++ [⟨d, a, c⟩] }
        else
          match send_discord_webhook (dlv d) with
          | .ok _ =>
            { s with queried := s.queried ++ [d],
                     results := s.results ++ [⟨d, a, c⟩],
                     sent := s.sent ++ [(d, dlv d)],
                     notified := insert d s.notified,
                     newCount := s.newCount + 1 }
          | .error _ =>
            { s with queried := s.queried ++ [d],
                     results := s.results ++ [⟨d, a, c⟩],
                     sent := s.sent ++ [(d, dlv d)] }
      else
        if d ∈ s.notified then
          { s with queried := s.queried ++ [d],
                   notified := s.notified.erase d }
        else { s with queried := s.queried ++ [d] }

/-- The inclusive date range iterated by the `while current_date <= end_date_obj`
loop (lines 91-148): `[startDate, ..., endDate]`, empty when
`startDate > endDate`. -/
def dateRange (startDate endDate : Nat) : List Nat :=
  List.range' startDate (endDate + 1 - startDate)

/-- The state at the top of `check_availability`, before the loop
(lines 88-89): the caller-provided notified set and empty accumulators. -/
def initState (notified : Finset Nat) : RunState :=
  ⟨notified, [], [], [], 0⟩

/-- Definition of `check_availability(start_date, end_date, url, notified_dates, skip_dates)`
(lines 60-156): folds the loop body over the inclusive date range.  The
returned `RunState` carries the returned list (`results`), the final notified
set, and the observable query/notification traces. -/
def check_availability (source : Nat → QueryResult) (dlv : Nat → DeliveryOutcome)
    (startDate endDate : Nat) (notified : Finset Nat) (skip : Finset Nat) : RunState :=
  (dateRange startDate endDate).foldl (processDate source dlv skip) (initState notified)

/-- Number of notification attempts for date `d` in a run. -/
def sentCount (s : RunState) (d : Nat) : Nat :=
  s.sent.countP (fun q => q.1 == d)

/-- The persisted notified-dates file (`notified_dates.json`), as
`load_notified_dates` can find it: absent (line 40), unreadable or corrupt
(lines 41-43), readable JSON without the `notified_dates` key (`.get`
default at line 39), or a saved state with its list of dates. -/
inductive StoreFile where
  | missing : StoreFile
  | unreadable : StoreFile
  | otherJson : StoreFile
  | saved (dates : List String) : StoreFile
deriving Repr

/-- Definition of `load_notified_dates` (lines 31-43): returns the set of persisted date
strings, and the empty set when the file is missing, unreadable, or lacks
the `notified_dates` key. -/
def load_notified_dates : StoreFile → Finset String
  | .missing => ∅
  | .unreadable => ∅
  | .otherJson => ∅
  | .saved l => l.toFinset

/-- Definition of `save_notified_dates` (lines 45-58): writes `list(notified_dates)` under
the `notified_dates` key, overwriting the file.  Python enumerates the set in
an unspecified order; we fix the sorted order, which only affects the array
layout of the file, not the set it denotes. -/
def save_notified_dates (s : Finset String) : StoreFile :=
  .saved (s.sort (· ≤ ·))

/-- The availability record the run appends for date `d`, if any: present
exactly when `d` is not skipped, the query yields a usable payload, and the
available count is positive. -/
def recordOf (source : Nat → QueryResult) (skip : Finset Nat) (d : Nat) :
    Option AvailRecord :=
  if d ∈ skip then none
  else
    match source d with
    | .ok a c => if 0 < a then some ⟨d, a, c⟩ else none
    | _ => none

/-- The notification attempt the run makes for date `d` against a notified
set `n`, if any: present exactly when `d` is not skipped, reports available
`> 0`, and is not already in `n`. -/
def sentOf (source : Nat → QueryResult) (dlv : Nat → DeliveryOutcome)
    (skip : Finset Nat) (n : Finset Nat) (d : Nat) : Option (Nat × DeliveryOutcome) :=
  if d ∈ skip then none
  else
    match source d with
    | .ok a _ => if 0 < a then (if d ∈ n then none else some (d, dlv d)) else none
    | _ => none

section StepLemmas

variable {src : Nat → QueryResult} {dlv : Nat → DeliveryOutcome} {skip : Finset Nat}
variable {s : RunState} {d : Nat} {a c : Nat}

lemma send_ok (o : DeliveryOutcome) :
    ∃ logs, send_discord_webhook o = Except.ok logs := by
  cases o <;> exact ⟨_, rfl⟩

lemma processDate_skip (h : d ∈ skip) : processDate src dlv skip s d = s := by
  simp [processDate, h]

lemma processDate_failure (h : d ∉ skip) (hq : src d = .failure) :
    processDate src dlv skip s d = { s with queried := s.queried ++ [d] } := by
  simp [processDate, h, hq]

lemma processDate_noData (h : d ∉ skip) (hq : src d = .noData) :
    processDate src dlv skip s d = { s with queried := s.queried ++ [d] } := by
  simp [processDate, h, hq]

lemma processDate_avail_old (h : d ∉ skip) (hq : src d = .ok a c) (ha : 0 < a)
    (hn : d ∈ s.notified) :
    processDate src dlv skip s d
      = { s with queried := s.queried ++ [d],
                 results := s.results ++ [⟨d, a, c⟩] } := by
  simp [processDate, h, hq, ha, hn]

lemma processDate_avail_new (h : d ∉ skip) (hq : src d = .ok a c) (ha : 0 < a)
    (hn : d ∉ s.notified) :
    processDate src dlv skip s d
      = { s with queried := s.queried ++ [d],
                 results := s.results ++ [⟨d, a, c⟩],
                 sent := s.sent ++ [(d, dlv d)],
                 notified := insert d s.notified,
                 newCount := s.newCount + 1 } := by
  obtain ⟨logs, hsend⟩ := send_ok (dlv d)
  simp [processDate, h, hq, ha, hn, hsend]

lemma processDate_full (h : d ∉ skip) (hq : src d = .ok a c) (ha : ¬ 0 < a) :
    processDate src dlv skip s d
      = { s with queried := s.queried ++ [d],
                 notified := s.notified.erase d } := by
  by_cases hn : d ∈ s.notified
  · simp [processDate, h, hq, ha, hn]
  · simp [processDate, h, hq, ha, hn, Finset.erase_eq_self.mpr hn]

lemma queried_processDate :
    (processDate src dlv skip s d).queried
      = s.queried ++ (if d ∈ skip then [] else [d]) := by
  by_cases h : d ∈ skip
  · rw [processDate_skip h]
    simp [h]
  · cases hq : src d with
    | failure =>
      rw [processDate_failure h hq]
      simp [h]
    | noData =>
      rw [processDate_noData h hq]
      simp [h]
    | ok a c =>
      by_cases ha : 0 < a
      · by_cases hn : d ∈ s.notified
        · rw [processDate_avail_old h hq ha hn]
          simp [h]
        · rw [processDate_avail_new h hq ha hn]
          simp [h]
      · rw [processDate_full h hq ha]
        simp [h]

lemma results_processDate :
    (processDate src dlv skip s d).results
      = s.results ++ (recordOf src skip d).toList := by
  by_cases h : d ∈ skip
  · rw [processDate_skip h]
    simp [recordOf, h]
  · cases hq : src d with
    | failure =>
      rw [processDate_failure h hq]
      simp [recordOf, h, hq]
    | noData =>
      rw [processDate_noData h hq]
      simp [recordOf, h, hq]
    | ok a c =>
      by_cases ha : 0 < a
      · by_cases hn : d ∈ s.notified
        · rw [processDate_avail_old h hq ha hn]
          simp [recordOf, h, hq, ha]
        · rw [processDate_avail_new h hq ha hn]
          simp [recordOf, h, hq, ha]
      · rw [processDate_full h hq ha]
        simp [recordOf, h, hq, ha]

lemma sent_processDate :
    (processDate src dlv skip s d).sent
      = s.sent ++ (sentOf src dlv skip s.notified d).toList := by
  by_cases h : d ∈ skip
  · rw [processDate_skip h]
    simp [sentOf, h]
  · cases hq : src d with
    | failure =>
      rw [processDate_failure h hq]
      simp [sentOf, h, hq]
    | noData =>
      rw [processDate_noData h hq]
      simp [sentOf, h, hq]
    | ok a c =>
      by_cases ha : 0 < a
      · by_cases hn : d ∈ s.notified
        · rw [processDate_avail_old h hq ha hn]
          simp [sentOf, h, hq, ha, hn]
        · rw [processDate_avail_new h hq ha hn]
          simp [sentOf, h, hq, ha, hn]
      · rw [processDate_full h hq ha]
        simp [sentOf, h, hq, ha]

lemma mem_notified_processDate_ne {e : Nat} (hne : e ≠ d) :
    (e ∈ (processDate src dlv skip s d).notified ↔ e ∈ s.notified) := by
  by_cases h : d ∈ skip
  · rw [processDate_skip h]
  · cases hq : src d with
    | failure => rw [processDate_failure h hq]
    | noData => rw [processDate_noData h hq]
    | ok a c =>
      by_cases ha : 0 < a
      · by_cases hn : d ∈ s.notified
        · rw [processDate_avail_old h hq ha hn]
        · rw [processDate_avail_new h hq ha hn]
          simp [Finset.mem_insert, hne]
      · rw [processDate_full h hq ha]
        simp [Finset.mem_erase, hne]

lemma notified_processDate_inert
    (h : d ∈ skip ∨ src d = .failure ∨ src d = .noData) :
    (processDate src dlv skip s d).notified = s.notified := by
  rcases h with h | h | h
  · rw [processDate_skip h]
  · by_cases hs : d ∈ skip
    · rw [processDate_skip hs]
    · rw [processDate_failure hs h]
  · by_cases hs : d ∈ skip
    · rw [processDate_skip hs]
    · rw [processDate_noData hs h]

lemma mem_notified_processDate_self (h : d ∉ skip) (hq : src d = .ok a c) :
    (d ∈ (processDate src dlv skip s d).notified ↔ 0 < a) := by
  by_cases ha : 0 < a
  · by_cases hn : d ∈ s.notified
    · rw [processDate_avail_old h hq ha hn]
      simp [hn, ha]
    · rw [processDate_avail_new h hq ha hn]
      simp [ha]
  · rw [processDate_full h hq ha]
    simp [ha]

end StepLemmas

section FoldLemmas

variable {src : Nat → QueryResult} {dlv : Nat → DeliveryOutcome} {skip : Finset Nat}

lemma queried_foldl (L : List Nat) (s : RunState) :
    (L.foldl (processDate src dlv skip) s).queried
      = s.queried ++ L.filter (fun e => decide (e ∉ skip)) := by
  induction L generalizing s with
  | nil => simp
  | cons x t ih =>
    rw [List.foldl_cons, ih, queried_processDate]
    by_cases h : x ∈ skip <;> simp [h, List.filter_cons]

lemma results_foldl (L : List Nat) (s : RunState) :
    (L.foldl (processDate src dlv skip) s).results
      = s.results ++ L.filterMap (recordOf src skip) := by
  induction L generalizing s with
  | nil => simp
  | cons x t ih =>
    rw [List.foldl_cons, ih, results_processDate]
    cases hr : recordOf src skip x <;> simp [List.filterMap_cons, hr]

lemma mem_notified_foldl_inert {d : Nat} :
    ∀ (L : List Nat) (s : RunState),
      (d ∉ L ∨ d ∈ skip ∨ src d = .failure ∨ src d = .noData) →
      (d ∈ (L.foldl (processDate src dlv skip) s).notified ↔ d ∈ s.notified) := by
  intro L
  induction L with
  | nil => intro s _; simp
  | cons x t ih =>
    intro s h
    rw [List.foldl_cons]
    by_cases hdx : d = x
    · subst hdx
      rcases h with h | h
      · exact absurd (List.mem_cons_self d t) h
      · rw [ih _ (Or.inr h), notified_processDate_inert h]
    · have ht : d ∉ t ∨ d ∈ skip ∨ src d = .failure ∨ src d = .noData := by
        rcases h with h | h
        · exact Or.inl (fun hm => h (List.mem_cons_of_mem _ hm))
        · exact Or.inr h
      rw [ih _ ht, mem_notified_processDate_ne hdx]

lemma mem_notified_foldl_avail {d a c : Nat} (hs : d ∉ skip)
    (hq : src d = .ok a c) :
    ∀ (L : List Nat) (s : RunState), d ∈ L →
      (d ∈ (L.foldl (processDate src dlv skip) s).notified ↔ 0 < a) := by
  intro L
  induction L with
  | nil => intro s hd; simp at hd
  | cons x t ih =>
    intro s hd
    rw [List.foldl_cons]
    by_cases hdt : d ∈ t
    · exact ih _ hdt
    · have hdx : d = x := by
        rcases List.mem_cons.mp hd with h | h
        · exact h
        · exact absurd h hdt
      subst hdx
      rw [mem_notified_foldl_inert t _ (Or.inl hdt),
        mem_notified_processDate_self hs hq]

lemma sentOf_congr {n₁ n₂ : Finset Nat} {d : Nat} (h : d ∈ n₁ ↔ d ∈ n₂) :
    sentOf src dlv skip n₁ d = sentOf src dlv skip n₂ d := by
  by_cases hs : d ∈ skip
  · simp [sentOf, hs]
  · cases hq : src d with
    | failure => simp [sentOf, hs, hq]
    | noData => simp [sentOf, hs, hq]
    | ok a c =>
      by_cases hn : d ∈ n₁
      · have hn₂ : d ∈ n₂ := h.mp hn
        simp [sentOf, hs, hq, hn, hn₂]
      · have hn₂ : d ∉ n₂ := fun hc => hn (h.mpr hc)
        simp [sentOf, hs, hq, hn, hn₂]

lemma sent_foldl :
    ∀ (L : List Nat), L.Nodup → ∀ (s : RunState),
      (L.foldl (processDate src dlv skip) s).sent
        = s.sent ++ L.filterMap (sentOf src dlv skip s.notified) := by
  intro L
  induction L with
  | nil => intro _ s; simp
  | cons x t ih =>
    intro hnd s
    obtain ⟨hx, ht⟩ := List.nodup_cons.mp hnd
    rw [List.foldl_cons, ih ht, sent_processDate]
    have hcong :
        t.filterMap (sentOf src dlv skip (processDate src dlv skip s x).notified)
          = t.filterMap (sentOf src dlv skip s.notified) := by
      refine List.filterMap_congr ?_
      intro e he
      exact sentOf_congr (mem_notified_processDate_ne (fun hex => hx (hex ▸ he)))
    rw [hcong]
    cases hsx : sentOf src dlv skip s.notified x <;>
      simp [List.filterMap_cons, hsx]

lemma sentOf_eq_some {n : Finset Nat} {e : Nat} {q : Nat × DeliveryOutcome}
    (h : sentOf src dlv skip n e = some q) :
    q.1 = e ∧ e ∉ skip ∧ e ∉ n := by
  by_cases hs : e ∈ skip
  · simp [sentOf, hs] at h
  · cases hq : src e with
    | failure => simp [sentOf, hs, hq] at h
    | noData => simp [sentOf, hs, hq] at h
    | ok a c =>
      by_cases ha : 0 < a
      · by_cases hn : e ∈ n
        · simp [sentOf, hs, hq, ha, hn] at h
        · simp [sentOf, hs, hq, ha, hn] at h
          exact ⟨by rw [← h], hs, hn⟩
      · simp [sentOf, hs, hq, ha] at h

lemma countP_filterMap_sentOf_zero {n : Finset Nat} {d : Nat}
    (L : List Nat) (hd : d ∉ L) :
    (L.filterMap (sentOf src dlv skip n)).countP (fun q => q.1 == d) = 0 := by
  refine List.countP_eq_zero.mpr ?_
  intro q hq
  obtain ⟨e, he, hse⟩ := List.mem_filterMap.mp hq
  obtain ⟨h1, -, -⟩ := sentOf_eq_some hse
  simp only [beq_iff_eq]
  intro hqd
  have hed : e = d := by rw [← h1, hqd]
  exact hd (hed ▸ he)

lemma countP_filterMap_sentOf {n : Finset Nat} {d : Nat} :
    ∀ (L : List Nat), L.Nodup →
      (L.filterMap (sentOf src dlv skip n)).countP (fun q => q.1 == d)
        = if d ∈ L ∧ (sentOf src dlv skip n d).isSome then 1 else 0 := by
  intro L
  induction L with
  | nil => simp
  | cons x t ih =>
    intro hnd
    obtain ⟨hx, ht⟩ := List.nodup_cons.mp hnd
    by_cases hdx : d = x
    · subst hdx
      cases hsx : sentOf src dlv skip n d with
      | none =>
        rw [List.filterMap_cons_none hsx, ih ht]
        simp [hx, hsx]
      | some q =>
        obtain ⟨h1, -, -⟩ := sentOf_eq_some hsx
        rw [List.filterMap_cons_some hsx, List.countP_cons,
          countP_filterMap_sentOf_zero t hx]
        simp [h1, hsx]
    · cases hsx : sentOf src dlv skip n x with
      | none =>
        rw [List.filterMap_cons_none hsx, ih ht]
        simp [List.mem_cons, hdx]
      | some q =>
        obtain ⟨h1, -, -⟩ := sentOf_eq_some hsx
        rw [List.filterMap_cons_some hsx, List.countP_cons, ih ht]
        have hne : (q.1 == d) = false := by
          simp only [h1, beq_eq_false_iff_ne, ne_eq]
          exact fun hh => hdx hh.symm
        simp [List.mem_cons, hdx, hne]

lemma dateRange_nodup (st en : Nat) : (dateRange st en).Nodup :=
  List.nodup_range' st (en + 1 - st)

lemma dateRange_eq_nil {st en : Nat} (h : en < st) : dateRange st en = [] := by
  unfold dateRange
  rw [Nat.sub_eq_zero_of_le h, List.range'_zero]

lemma dateRange_self (st : Nat) : dateRange st st = [st] := by
  unfold dateRange
  rw [show st + 1 - st = 1 by omega, List.range'_one]

lemma sentCount_check (st en : Nat) (n₀ : Finset Nat) (d : Nat) :
    sentCount (check_availability src dlv st en n₀ skip) d
      = if d ∈ dateRange st en ∧ (sentOf src dlv skip n₀ d).isSome
        then 1 else 0 := by
  unfold sentCount check_availability
  rw [sent_foldl _ (dateRange_nodup st en)]
  simp only [initState, List.nil_append]
  exact countP_filterMap_sentOf _ (dateRange_nodup st en)

end FoldLemmas

section CharLemmas

variable {src : Nat → QueryResult} {dlv : Nat → DeliveryOutcome} {skip : Finset Nat}

lemma recordOf_eq_some {r : AvailRecord} {e : Nat}
    (h : recordOf src skip e = some r) :
    e ∉ skip ∧ ∃ a c, src e = .ok a c ∧ 0 < a ∧ r = ⟨e, a, c⟩ := by
  by_cases hs : e ∈ skip
  · simp [recordOf, hs] at h
  · cases hq : src e with
    | failure => simp [recordOf, hs, hq] at h
    | noData => simp [recordOf, hs, hq] at h
    | ok a c =>
      by_cases ha : 0 < a
      · simp only [recordOf, hs, if_false, hq, ha, if_true, Option.some.injEq] at h
        exact ⟨hs, a, c, rfl, ha, h.symm⟩
      · simp [recordOf, hs, hq, ha] at h

lemma sentOf_pos {n : Finset Nat} {d a c : Nat} (hs : d ∉ skip)
    (hq : src d = .ok a c) (ha : 0 < a) (hn : d ∉ n) :
    sentOf src dlv skip n d = some (d, dlv d) := by
  simp [sentOf, hs, hq, ha, hn]

lemma sentOf_of_mem {n : Finset Nat} {d a c : Nat} (hs : d ∉ skip)
    (hq : src d = .ok a c) (hn : d ∈ n) :
    sentOf src dlv skip n d = none := by
  by_cases ha : 0 < a <;> simp [sentOf, hs, hq, ha, hn]

lemma sentOf_noData {n : Finset Nat} {d : Nat} (hq : src d = .noData) :
    sentOf src dlv skip n d = none := by
  by_cases hs : d ∈ skip <;> simp [sentOf, hs, hq]

lemma sentOf_failure {n : Finset Nat} {d : Nat} (hq : src d = .failure) :
    sentOf src dlv skip n d = none := by
  by_cases hs : d ∈ skip <;> simp [sentOf, hs, hq]

lemma notified_check_dlv_congr (src : Nat → QueryResult)
    (dlv₁ dlv₂ : Nat → DeliveryOutcome) (st en : Nat) (n₀ skip : Finset Nat) :
    (check_availability src dlv₁ st en n₀ skip).notified
      = (check_availability src dlv₂ st en n₀ skip).notified := by
  ext d
  unfold check_availability
  by_cases hd : d ∈ dateRange st en
  · by_cases hs : d ∈ skip
    · rw [mem_notified_foldl_inert _ _ (Or.inr (Or.inl hs)),
        mem_notified_foldl_inert _ _ (Or.inr (Or.inl hs))]
    · cases hq : src d with
      | failure =>
        rw [mem_notified_foldl_inert _ _ (Or.inr (Or.inr (Or.inl hq))),
          mem_notified_foldl_inert _ _ (Or.inr (Or.inr (Or.inl hq)))]
      | noData =>
        rw [mem_notified_foldl_inert _ _ (Or.inr (Or.inr (Or.inr hq))),
          mem_notified_foldl_inert _ _ (Or.inr (Or.inr (Or.inr hq)))]
      | ok a c =>
        rw [mem_notified_foldl_avail hs hq _ _ hd,
          mem_notified_foldl_avail hs hq _ _ hd]
  · rw [mem_notified_foldl_inert _ _ (Or.inl hd),
      mem_notified_foldl_inert _ _ (Or.inl hd)]

end CharLemmas

/-- Concrete data-source oracle reporting 2 of 10 slots available for every
date, used to instantiate the theorems. -/
def srcAvail : Nat → QueryResult := fun _ => .ok 2 10

/-- Concrete data-source oracle reporting every date full (0 of 10). -/
def srcFull : Nat → QueryResult := fun _ => .ok 0 10

/-- Concrete data-source oracle answering with no usable payload. -/
def srcNoData : Nat → QueryResult := fun _ => .noData

/-- Concrete data-source oracle raising a transport failure on every date. -/
def srcFail : Nat → QueryResult := fun _ => .failure

/-- Concrete delivery oracle: every webhook post succeeds. -/
def dlvOk : Nat → DeliveryOutcome := fun _ => .success

/-- Concrete delivery oracle: every webhook post hits a network error. -/
def dlvFail : Nat → DeliveryOutcome := fun _ => .networkError

/-- C1: for every date `d` in the skip set, a run of `check_availability`
never queries the data source for `d` and `d` never appears in the returned
availability list, regardless of what the source would report for `d`. -/
theorem C1_skip_set_never_queried (src : Nat → QueryResult)
    (dlv : Nat → DeliveryOutcome) (st en : Nat) (n₀ skip : Finset Nat)
    (d : Nat) (h : d ∈ skip) :
    d ∉ (check_availability src dlv st en n₀ skip).queried ∧
    ∀ r ∈ (check_availability src dlv st en n₀ skip).results, r.date ≠ d := by
  constructor
  · unfold check_availability
    rw [queried_foldl]
    simp only [initState, List.nil_append, List.mem_filter]
    intro hmem
    have hdec := hmem.2
    simp only [decide_eq_true_eq] at hdec
    exact hdec h
  · intro r hr
    unfold check_availability at hr
    rw [results_foldl] at hr
    simp only [initState, List.nil_append] at hr
    obtain ⟨e, he, hre⟩ := List.mem_filterMap.mp hr
    obtain ⟨hes, a, c, -, -, hrec⟩ := recordOf_eq_some hre
    intro hrd
    rw [hrec] at hrd
    have hed : e = d := hrd
    exact hes (by rw [hed]; exact h)

/-- Witness for C1: date 3 is in the skip set of a concrete run over the
range 2..4 and is neither queried nor present in the results. -/
theorem C1_skip_set_never_queried_witness :
    (3 : Nat) ∈ ({3} : Finset Nat) ∧
    (3 ∉ (check_availability srcAvail dlvOk 2 4 ∅ {3}).queried ∧
      ∀ r ∈ (check_availability srcAvail dlvOk 2 4 ∅ {3}).results, r.date ≠ 3) :=
  ⟨by decide, C1_skip_set_never_queried srcAvail dlvOk 2 4 ∅ {3} 3 (by decide)⟩

/-- C2: a date observed with available > 0 is always appended to the returned
list; when it is not yet in the notified set exactly one notification is
attempted and it enters the notified set, and when it is already in the
notified set no notification is attempted; and a second run over unchanged
data starting from the first run's notified set attempts no notification at
all. -/
theorem C2_newly_available_notifies_once (src : Nat → QueryResult)
    (dlv dlv₂ : Nat → DeliveryOutcome) (st en : Nat) (n₀ skip : Finset Nat)
    (d a c : Nat) (hd : d ∈ dateRange st en) (hs : d ∉ skip)
    (hq : src d = .ok a c) (ha : 0 < a) :
    (⟨d, a, c⟩ : AvailRecord) ∈ (check_availability src dlv st en n₀ skip).results ∧
    (d ∉ n₀ → sentCount (check_availability src dlv st en n₀ skip) d = 1 ∧
      d ∈ (check_availability src dlv st en n₀ skip).notified) ∧
    (d ∈ n₀ → sentCount (check_availability src dlv st en n₀ skip) d = 0) ∧
    (check_availability src dlv₂ st en
        (check_availability src dlv st en n₀ skip).notified skip).sent = [] := by
  refine ⟨?_, ?_, ?_, ?_⟩
  · unfold check_availability
    rw [results_foldl]
    simp only [initState, List.nil_append]
    exact List.mem_filterMap.mpr ⟨d, hd, by simp [recordOf, hs, hq, ha]⟩
  · intro hn
    constructor
    · rw [sentCount_check]
      simp [hd, sentOf_pos hs hq ha hn]
    · unfold check_availability
      rw [mem_notified_foldl_avail hs hq _ _ hd]
      exact ha
  · intro hn
    rw [sentCount_check]
    simp [sentOf_of_mem hs hq hn]
  · unfold check_availability
    rw [sent_foldl _ (dateRange_nodup st en)]
    simp only [initState, List.nil_append]
    refine List.filterMap_eq_nil_iff.mpr ?_
    intro e he
    by_cases hes : e ∈ skip
    · simp [sentOf, hes]
    · cases heq : src e with
      | failure => exact sentOf_failure heq
      | noData => exact sentOf_noData heq
      | ok ea ec =>
        by_cases hea : 0 < ea
        · have hmem : e ∈ ((dateRange st en).foldl
              (processDate src dlv skip) (initState n₀)).notified := by
            rw [mem_notified_foldl_avail hes heq _ _ he]
            exact hea
          exact sentOf_of_mem hes heq hmem
        · simp [sentOf, hes, heq, hea]

/-- Witness for C2: date 1 with 2 slots available in a run over 1..2 starting
from an empty notified set. -/
theorem C2_newly_available_notifies_once_witness :
    ((1 : Nat) ∈ dateRange 1 2 ∧ (1 : Nat) ∉ (∅ : Finset Nat) ∧
      srcAvail 1 = .ok 2 10 ∧ 0 < 2) ∧
    ((⟨1, 2, 10⟩ : AvailRecord) ∈ (check_availability srcAvail dlvOk 1 2 ∅ ∅).results ∧
      ((1 : Nat) ∉ (∅ : Finset Nat) →
        sentCount (check_availability srcAvail dlvOk 1 2 ∅ ∅) 1 = 1 ∧
        1 ∈ (check_availability srcAvail dlvOk 1 2 ∅ ∅).notified) ∧
      ((1 : Nat) ∈ (∅ : Finset Nat) →
        sentCount (check_availability srcAvail dlvOk 1 2 ∅ ∅) 1 = 0) ∧
      (check_availability srcAvail dlvOk 1 2
          (check_availability srcAvail dlvOk 1 2 ∅ ∅).notified ∅).sent = []) :=
  ⟨⟨by decide, by decide, by decide, by decide⟩,
    C2_newly_available_notifies_once srcAvail dlvOk dlvOk 1 2 ∅ ∅ 1 2 10
      (by decide) (by decide) (by decide) (by decide)⟩

/-- C3: a date observed full (available = 0) is absent from the notified set
after the run, whether or not it was in it before (removal, respectively no
change); and when a later run observes it available > 0 again, exactly one
new notification is attempted. -/
theorem C3_retraction_then_reopen (src₁ src₂ : Nat → QueryResult)
    (dlv₁ dlv₂ : Nat → DeliveryOutcome) (st en : Nat) (n₀ skip : Finset Nat)
    (d c₁ a c₂ : Nat) (hd : d ∈ dateRange st en) (hs : d ∉ skip)
    (h1 : src₁ d = .ok 0 c₁) (h2 : src₂ d = .ok a c₂) (ha : 0 < a) :
    d ∉ (check_availability src₁ dlv₁ st en n₀ skip).notified ∧
    sentCount (check_availability src₂ dlv₂ st en
      (check_availability src₁ dlv₁ st en n₀ skip).notified skip) d = 1 := by
  have hout : d ∉ (check_availability src₁ dlv₁ st en n₀ skip).notified := by
    unfold check_availability
    rw [mem_notified_foldl_avail hs h1 _ _ hd]
    simp
  refine ⟨hout, ?_⟩
  rw [sentCount_check]
  simp [hd, sentOf_pos hs h2 ha hout]

/-- Witness for C3: date 1 was notified before, reports full in run one and
2 slots in run two; it leaves the notified set and is re-notified once. -/
theorem C3_retraction_then_reopen_witness :
    ((1 : Nat) ∈ dateRange 1 1 ∧ (1 : Nat) ∉ (∅ : Finset Nat) ∧
      srcFull 1 = .ok 0 10 ∧ srcAvail 1 = .ok 2 10 ∧ 0 < 2) ∧
    (1 ∉ (check_availability srcFull dlvOk 1 1 {1} ∅).notified ∧
      sentCount (check_availability srcAvail dlvOk 1 1
        (check_availability srcFull dlvOk 1 1 {1} ∅).notified ∅) 1 = 1) :=
  ⟨⟨by decide, by decide, by decide, by decide, by decide⟩,
    C3_retraction_then_reopen srcFull srcAvail dlvOk dlvOk 1 1 {1} ∅ 1 10 2 10
      (by decide) (by decide) (by decide) (by decide) (by decide)⟩

/-- C4: a date whose query succeeds but carries no usable payload is treated
as unknown: it is not appended to the returned list, no notification is
attempted for it, and its membership in the notified set is unchanged. -/
theorem C4_no_data_treated_as_unknown (src : Nat → QueryResult)
    (dlv : Nat → DeliveryOutcome) (st en : Nat) (n₀ skip : Finset Nat)
    (d : Nat) (hs : d ∉ skip) (hq : src d = .noData) :
    (∀ r ∈ (check_availability src dlv st en n₀ skip).results, r.date ≠ d) ∧
    sentCount (check_availability src dlv st en n₀ skip) d = 0 ∧
    (d ∈ (check_availability src dlv st en n₀ skip).notified ↔ d ∈ n₀) := by
  refine ⟨?_, ?_, ?_⟩
  · intro r hr
    unfold check_availability at hr
    rw [results_foldl] at hr
    simp only [initState, List.nil_append] at hr
    obtain ⟨e, he, hre⟩ := List.mem_filterMap.mp hr
    obtain ⟨-, a, c, heq, -, hrec⟩ := recordOf_eq_some hre
    intro hrd
    rw [hrec] at hrd
    have hed : e = d := hrd
    rw [hed, hq] at heq
    exact QueryResult.noConfusion heq
  · rw [sentCount_check]
    simp [sentOf_noData hq]
  · unfold check_availability
    exact mem_notified_foldl_inert _ _ (Or.inr (Or.inr (Or.inr hq)))

/-- Witness for C4: date 1 answers with no payload in a run over 1..2 with 1
already notified; nothing is emitted for it and it stays notified. -/
theorem C4_no_data_treated_as_unknown_witness :
    ((1 : Nat) ∉ (∅ : Finset Nat) ∧ srcNoData 1 = .noData) ∧
    ((∀ r ∈ (check_availability srcNoData dlvOk 1 2 {1} ∅).results, r.date ≠ 1) ∧
      sentCount (check_availability srcNoData dlvOk 1 2 {1} ∅) 1 = 0 ∧
      (1 ∈ (check_availability srcNoData dlvOk 1 2 {1} ∅).notified ↔
        (1 : Nat) ∈ ({1} : Finset Nat))) :=
  ⟨⟨by decide, by decide⟩,
    C4_no_data_treated_as_unknown srcNoData dlvOk 1 2 {1} ∅ 1
      (by decide) (by decide)⟩

/-- C5: a transport or parse failure for one date is non-fatal: the date
contributes nothing to the returned list, no notification is attempted for
it, its notified-set membership is unchanged, and every other non-skipped
date in the range is still queried. -/
theorem C5_query_failure_non_fatal (src : Nat → QueryResult)
    (dlv : Nat → DeliveryOutcome) (st en : Nat) (n₀ skip : Finset Nat)
    (d : Nat) (hs : d ∉ skip) (hq : src d = .failure) :
    (∀ r ∈ (check_availability src dlv st en n₀ skip).results, r.date ≠ d) ∧
    sentCount (check_availability src dlv st en n₀ skip) d = 0 ∧
    (d ∈ (check_availability src dlv st en n₀ skip).notified ↔ d ∈ n₀) ∧
    (check_availability src dlv st en n₀ skip).queried
      = (dateRange st en).filter (fun e => decide (e ∉ skip)) := by
  refine ⟨?_, ?_, ?_, ?_⟩
  · intro r hr
    unfold check_availability at hr
    rw [results_foldl] at hr
    simp only [initState, List.nil_append] at hr
    obtain ⟨e, he, hre⟩ := List.mem_filterMap.mp hr
    obtain ⟨-, a, c, heq, -, hrec⟩ := recordOf_eq_some hre
    intro hrd
    rw [hrec] at hrd
    have hed : e = d := hrd
    rw [hed, hq] at heq
    exact QueryResult.noConfusion heq
  · rw [sentCount_check]
    simp [sentOf_failure hq]
  · unfold check_availability
    exact mem_notified_foldl_inert _ _ (Or.inr (Or.inr (Or.inl hq)))
  · unfold check_availability
    rw [queried_foldl]
    simp [initState]

/-- Witness for C5: date 1 fails in a run over 1..2 with 1 already notified;
it contributes nothing, stays notified, and date 2 is still queried. -/
theorem C5_query_failure_non_fatal_witness :
    ((1 : Nat) ∉ (∅ : Finset Nat) ∧ srcFail 1 = .failure) ∧
    ((∀ r ∈ (check_availability srcFail dlvOk 1 2 {1} ∅).results, r.date ≠ 1) ∧
      sentCount (check_availability srcFail dlvOk 1 2 {1} ∅) 1 = 0 ∧
      (1 ∈ (check_availability srcFail dlvOk 1 2 {1} ∅).notified ↔
        (1 : Nat) ∈ ({1} : Finset Nat)) ∧
      (check_availability srcFail dlvOk 1 2 {1} ∅).queried
        = (dateRange 1 2).filter (fun e => decide (e ∉ (∅ : Finset Nat)))) :=
  ⟨⟨by decide, by decide⟩,
    C5_query_failure_non_fatal srcFail dlvOk 1 2 {1} ∅ 1 (by decide) (by decide)⟩

/-- C6: `send_discord_webhook` never lets a delivery failure escape to its
caller; consequently the notified set and the returned list of a run do not
depend on delivery outcomes at all, and in particular a newly available date
enters the notified set even when its own notification fails. -/
theorem C6_delivery_failure_never_escapes :
    (∀ o, ∃ logs, send_discord_webhook o = Except.ok logs) ∧
    (∀ (src : Nat → QueryResult) (dlv₁ dlv₂ : Nat → DeliveryOutcome)
        (st en : Nat) (n₀ skip : Finset Nat),
      (check_availability src dlv₁ st en n₀ skip).notified
        = (check_availability src dlv₂ st en n₀ skip).notified ∧
      (check_availability src dlv₁ st en n₀ skip).results
        = (check_availability src dlv₂ st en n₀ skip).results) ∧
    (∀ (src : Nat → QueryResult) (dlv : Nat → DeliveryOutcome)
        (st en : Nat) (n₀ skip : Finset Nat) (d a c : Nat),
      d ∈ dateRange st en → d ∉ skip → src d = .ok a c → 0 < a →
      dlv d ≠ .success →
      d ∈ (check_availability src dlv st en n₀ skip).notified) := by
  refine ⟨send_ok, ?_, ?_⟩
  · intro src dlv₁ dlv₂ st en n₀ skip
    refine ⟨notified_check_dlv_congr src dlv₁ dlv₂ st en n₀ skip, ?_⟩
    unfold check_availability
    rw [results_foldl, results_foldl]
  · intro src dlv st en n₀ skip d a c hd hs hq ha _
    unfold check_availability
    rw [mem_notified_foldl_avail hs hq _ _ hd]
    exact ha

/-- Witness for C6: date 5 is newly available in a run over 5..6 in which
every webhook post hits a network error, and still enters the notified set. -/
theorem C6_delivery_failure_never_escapes_witness :
    ((5 : Nat) ∈ dateRange 5 6 ∧ (5 : Nat) ∉ (∅ : Finset Nat) ∧
      srcAvail 5 = .ok 2 10 ∧ 0 < 2 ∧ dlvFail 5 ≠ .success) ∧
    5 ∈ (check_availability srcAvail dlvFail 5 6 ∅ ∅).notified :=
  ⟨⟨by decide, by decide, by decide, by decide, by decide⟩,
    C6_delivery_failure_never_escapes.2.2 srcAvail dlvFail 5 6 ∅ ∅ 5 2 10
      (by decide) (by decide) (by decide) (by decide) (by decide)⟩

/-- C7: saving any set of date strings and loading it back yields exactly
that set, and loading returns the empty set when no state exists, when the
state is unreadable, and when the file lacks the expected key. -/
theorem C7_store_round_trip :
    (∀ s : Finset String, load_notified_dates (save_notified_dates s) = s) ∧
    load_notified_dates .missing = ∅ ∧
    load_notified_dates .unreadable = ∅ ∧
    load_notified_dates .otherJson = ∅ := by
  refine ⟨?_, rfl, rfl, rfl⟩
  intro s
  show (s.sort (· ≤ ·)).toFinset = s
  exact Finset.sort_toFinset _ s

/-- C8: the date range is inclusive on both ends: when `startDate > endDate`
the run processes zero dates — empty returned list, no notifications, and an
unchanged notified set — and when `startDate = endDate` it processes exactly
the one date `startDate`. -/
theorem C8_inclusive_boundaries (src : Nat → QueryResult)
    (dlv : Nat → DeliveryOutcome) (st en : Nat) (n₀ skip : Finset Nat) :
    (en < st → (check_availability src dlv st en n₀ skip).results = [] ∧
      (check_availability src dlv st en n₀ skip).sent = [] ∧
      (check_availability src dlv st en n₀ skip).queried = [] ∧
      (check_availability src dlv st en n₀ skip).notified = n₀) ∧
    dateRange st st = [st] := by
  constructor
  · intro h
    unfold check_availability
    rw [dateRange_eq_nil h]
    exact ⟨rfl, rfl, rfl, rfl⟩
  · exact dateRange_self st

/-- Witness for C8: a run over the empty range 5..3 touches nothing, and the
range 4..4 is the single date 4. -/
theorem C8_inclusive_boundaries_witness :
    (3 < 5) ∧
    ((check_availability srcAvail dlvOk 5 3 {7} ∅).results = [] ∧
      (check_availability srcAvail dlvOk 5 3 {7} ∅).sent = [] ∧
      (check_availability srcAvail dlvOk 5 3 {7} ∅).queried = [] ∧
      (check_availability srcAvail dlvOk 5 3 {7} ∅).notified = {7}) ∧
    dateRange 4 4 = [4] :=
  ⟨by decide, (C8_inclusive_boundaries srcAvail dlvOk 5 3 {7} ∅).1 (by decide),
    (C8_inclusive_boundaries srcAvail dlvOk 4 4 {7} ∅).2⟩

/-- C9: after a run, a date queried successfully within the range and not
skipped is in the final notified set exactly when the run observed its
available count > 0. -/
theorem C9_notified_iff_observed_available (src : Nat → QueryResult)
    (dlv : Nat → DeliveryOutcome) (st en : Nat) (n₀ skip : Finset Nat)
    (d a c : Nat) (hd : d ∈ dateRange st en) (hs : d ∉ skip)
    (hq : src d = .ok a c) :
    (d ∈ (check_availability src dlv st en n₀ skip).notified ↔ 0 < a) := by
  unfold check_availability
  exact mem_notified_foldl_avail hs hq _ _ hd

/-- Witness for C9: date 2 was notified before but reports full (0 slots) in
a run over 1..3, so it is absent from the final notified set. -/
theorem C9_notified_iff_observed_available_witness :
    ((2 : Nat) ∈ dateRange 1 3 ∧ (2 : Nat) ∉ (∅ : Finset Nat) ∧
      srcFull 2 = .ok 0 10) ∧
    (2 ∈ (check_availability srcFull dlvOk 1 3 {2} ∅).notified ↔ 0 < 0) :=
  ⟨⟨by decide, by decide, by decide⟩,
    C9_notified_iff_observed_available srcFull dlvOk 1 3 {2} ∅ 2 0 10
      (by decide) (by decide) (by decide)⟩

/-- C10: frame property — a date outside the inclusive range, or in the skip
set, or whose query failed or returned no usable payload, has the same
notified-set membership after the run as before it. -/
theorem C10_frame_notified_membership (src : Nat → QueryResult)
    (dlv : Nat → DeliveryOutcome) (st en : Nat) (n₀ skip : Finset Nat)
    (d : Nat)
    (h : d ∉ dateRange st en ∨ d ∈ skip ∨ src d = .failure ∨ src d = .noData) :
    (d ∈ (check_availability src dlv st en n₀ skip).notified ↔ d ∈ n₀) := by
  unfold check_availability
  exact mem_notified_foldl_inert _ _ h

/-- Witness for C10: date 9 lies outside the range 1..3 and keeps its prior
membership in the notified set. -/
theorem C10_frame_notified_membership_witness :
    ((9 : Nat) ∉ dateRange 1 3 ∨ (9 : Nat) ∈ (∅ : Finset Nat) ∨
      srcAvail 9 = .failure ∨ srcAvail 9 = .noData) ∧
    (9 ∈ (check_availability srcAvail dlvOk 1 3 {9} ∅).notified ↔
      (9 : Nat) ∈ ({9} : Finset Nat)) :=
  ⟨by decide,
    C10_frame_notified_membership srcAvail dlvOk 1 3 {9} ∅ 9 (by decide)⟩

end BookingNotify
